import Mathlib

/-!
Verification of the log-source discovery and tailing-lifecycle subsystem:
the container `Scanner` (pkg/logs/input/container/scanner.go), the
`FileProvider` (pkg/logs/input/tailer) and the docker `eventFanout`.

The Go code is shallowly embedded: Go strings become `String`, Go maps
become association lists (`List (String × α)`), Go channels are modelled
by their capacities and queued-message counts, and a Go panic (slice out
of range) becomes `Except.error`.
-/

namespace DDAgent

/-! ## Go string primitives used by the scanner -/

/-- Go `unicode.IsSpace`: the white-space runes recognised by
`strings.TrimSpace`, identified by code point. -/
def goIsSpace (c : Char) : Bool :=
  let n := c.toNat
  n == 0x20 || n == 0x9 || n == 0xa || n == 0xb || n == 0xc || n == 0xd ||
  n == 0x85 || n == 0xa0 ||
  n == 0x1680 || (0x2000 <= n && n <= 0x200a) || n == 0x2028 || n == 0x2029 ||
  n == 0x202f || n == 0x205f || n == 0x3000

/-- Go `strings.TrimSpace`: drop leading and trailing white space. -/
def trimSpace (s : String) : String :=
  String.mk (((s.toList.dropWhile goIsSpace).reverse.dropWhile goIsSpace).reverse)

/-- Helper for `goSplitComma` over the character list. -/
def goSplitCommaAux : List Char → List Char → List String
  | [], cur => [String.mk cur.reverse]
  | c :: rest, cur =>
    if c == ',' then String.mk cur.reverse :: goSplitCommaAux rest []
    else goSplitCommaAux rest (c :: cur)

/-- Go `strings.Split(s, ",")`: split around every comma; always returns at
least one (possibly empty) field. -/
def goSplitComma (s : String) : List String :=
  goSplitCommaAux s.toList []

/-- Helper for `fieldsFunc` over the character list. -/
def fieldsFuncAux (f : Char → Bool) : List Char → List Char → List String
  | [], cur => if cur.isEmpty then [] else [String.mk cur.reverse]
  | c :: rest, cur =>
    if f c then
      if cur.isEmpty then fieldsFuncAux f rest []
      else String.mk cur.reverse :: fieldsFuncAux f rest []
    else fieldsFuncAux f rest (c :: cur)

/-- Go `strings.FieldsFunc`: the maximal runs of characters not satisfying
`f`, in order; empty fields are never produced. -/
def fieldsFunc (f : Char → Bool) (s : String) : List String :=
  fieldsFuncAux f s.toList []

/-- The separator predicate used by `sourceShouldMonitorContainer`:
`c == ':' || c == '='`. -/
def isLabelSep (c : Char) : Bool :=
  c == ':' || c == '='

/-- Go `len(s)` on a string counts bytes (UTF-8). -/
def goLen (s : String) : Nat :=
  s.utf8ByteSize

/-- First value bound to key `k` in a Go-map modelled as an association
list (Go maps have unique keys, so at most one entry per key exists). -/
def assocFind? {α : Type} : List (String × α) → String → Option α
  | [], _ => none
  | (k, v) :: rest, id => if k == id then some v else assocFind? rest id

/-! ## Scanner data model (pkg/logs/input/container/scanner.go) -/

/-- The `Type` tag of a log source configuration (`config.DockerType` vs the
file type); behaviour selection is a plain conditional over this tag. -/
inductive LogType where
  | docker
  | file
deriving DecidableEq, Repr

/-- The fields of `config.LogSource` consumed by the scanner:
`Config.Type`, `Config.Image`, `Config.Label`. -/
structure LogSource where
  type_ : LogType
  image : String
  label : String
deriving DecidableEq, Repr

/-- A running container snapshot (`types.Container`): `{ID, Image, Labels}`.
`labels` models the Go `map[string]string` as an association list with
unique keys. -/
structure Container where
  id : String
  image : String
  labels : List (String × String)
deriving DecidableEq, Repr

/-- One entry of the scanner's tailer registry. `NewDockerTailer` (external
collaborator) records the container's ID and starts with its cooperative
`shouldStop` flag unset. -/
structure DockerTailer where
  containerID : String
  shouldStop : Bool
deriving DecidableEq, Repr

/-- `container.Labels[label]` existence check plus lookup; a missing key
yields Go's zero value `""` through `getD`. -/
def labelEntryMatches (labels : List (String × String)) (value : String) : Bool :=
  let label := trimSpace value
  let parts := fieldsFunc isLabelSep label
  (assocFind? labels label).isSome ||
    (match parts with
     | [k, v] => ((assocFind? labels k).getD "") == v
     | _ => false)

/-- `sourceShouldMonitorContainer` (scanner.go:159): image must match
exactly when configured, then the comma-separated label entries are tried
in order; with neither configured every container matches. -/
def sourceShouldMonitorContainer (source : LogSource) (container : Container) : Bool :=
  if source.image != "" && container.image != source.image then false
  else if source.label != "" then
    (goSplitComma source.label).any (labelEntryMatches container.labels)
  else true

/-! ## The tailer registry (the Go map `tailers map[string]*DockerTailer`) -/

/-- The scanner's tailer registry, keyed by container ID. -/
abbrev Registry := List (String × DockerTailer)

/-- Go `delete(m, k)`: remove the binding of `k`. -/
def regErase (m : Registry) (k : String) : Registry :=
  m.filter (fun p => !(p.1 == k))

/-- Go `m[k] = v`: bind `k` to `v`, replacing any previous binding. -/
def regInsert (m : Registry) (k : String) (v : DockerTailer) : Registry :=
  (k, v) :: regErase m k

/-- The Go map representation invariant of the registry: each tailer is
stored under its own container ID (`s.tailers[container.ID] = t` with
`t.ContainerID = container.ID`, scanner.go:223). -/
abbrev RegistryWF (m : Registry) : Prop :=
  ∀ p ∈ m, p.2.containerID = p.1

/-- `containersToMonitor[container.ID] = true`: the `map[string]bool` used
as a set. -/
def setInsert (l : List String) (id : String) : List String :=
  if l.contains id then l else id :: l

/-! ## Scanner state and reconciliation (`scan`) -/

/-- The `Scanner` fields that carry reconciliation state: the
container-type sources kept by `New`, the tailer registry, and the
`shouldStop` flag set by `Stop`. -/
structure ScannerState where
  sources : List LogSource
  tailers : Registry
  shouldStop : Bool
deriving DecidableEq, Repr

/-- `New` (scanner.go:44): keep only the sources whose `Config.Type` is
`config.DockerType`; start with an empty registry. -/
def scannerNew (sources : List LogSource) : ScannerState :=
  { sources := sources.filter (fun s => s.type_ == LogType.docker)
    tailers := []
    shouldStop := false }

/-- `humanReadableContainerID` (scanner.go:226): `containerID[:12]` slices
the first 12 bytes and panics (`slice bounds out of range`) when the ID is
shorter; the panic is the `Except.error` case. -/
def humanReadableContainerID (containerID : String) : Except String String :=
  if goLen containerID < 12 then
    Except.error "runtime error: slice bounds out of range"
  else
    Except.ok (containerID.take 12)

/-- `setupTailer` (scanner.go:211): log the new container (which slices the
ID, see `humanReadableContainerID`), build the tailer with
`NewDockerTailer` and register it under the container's ID. The tail-mode
choice and the pipeline channel only affect the external tailer session,
not the registry. -/
def setupTailer (container : Container) (_source : LogSource)
    (_tailFromBeginning : Bool) (tailers : Registry) : Except String Registry :=
  match humanReadableContainerID container.id with
  | Except.error e => Except.error e
  | Except.ok _ =>
    Except.ok (regInsert tailers container.id
      { containerID := container.id, shouldStop := false })

/-- `stopTailer` (scanner.go:140): stop the session (external) and delete
the registry binding of `tailer.ContainerID`. -/
def stopTailerReg (tailers : Registry) (tailer : DockerTailer) : Registry :=
  regErase tailers tailer.containerID

/-- The inner loop of `scan` (scanner.go:115-128) for one container:
try every source in order; on a match mark the container to monitor,
replace a tailer that has signalled it should stop, and set up a tailer if
none is registered. -/
def monitorCt (sources : List LogSource) (ct : Container) (b : Bool)
    (toMonitor : List String) (tailers : Registry) :
    Except String (List String × Registry) :=
  match sources with
  | [] => Except.ok (toMonitor, tailers)
  | source :: rest =>
    if sourceShouldMonitorContainer source ct then
      let toMonitor' := setInsert toMonitor ct.id
      match assocFind? tailers ct.id with
      | some tailer =>
        if tailer.shouldStop then
          match setupTailer ct source b (stopTailerReg tailers tailer) with
          | Except.error e => Except.error e
          | Except.ok tailers' => monitorCt rest ct b toMonitor' tailers'
        else
          monitorCt rest ct b toMonitor' tailers
      | none =>
        match setupTailer ct source b tailers with
        | Except.error e => Except.error e
        | Except.ok tailers' => monitorCt rest ct b toMonitor' tailers'
    else
      monitorCt rest ct b toMonitor tailers

/-- The outer loop of `scan` (scanner.go:114-129): fold `monitorCt` over
the running containers. -/
def monitorAll (sources : List LogSource) (containers : List Container)
    (b : Bool) (toMonitor : List String) (tailers : Registry) :
    Except String (List String × Registry) :=
  match containers with
  | [] => Except.ok (toMonitor, tailers)
  | ct :: rest =>
    match monitorCt sources ct b toMonitor tailers with
    | Except.error e => Except.error e
    | Except.ok (tm, tl) => monitorAll sources rest b tm tl

/-- The "stop old containers" loop of `scan` (scanner.go:132-137): range
over the registry, stopping and deleting every tailer whose container ID
was not marked this cycle; a deleted entry is not visited again. -/
def stopOld (tailers : Registry) (toMonitor : List String) : Registry :=
  match tailers with
  | [] => []
  | (id, tailer) :: rest =>
    if toMonitor.contains id then (id, tailer) :: stopOld rest toMonitor
    else stopOld (stopTailerReg rest tailer) toMonitor
termination_by tailers.length
decreasing_by
  · simp only [List.length_cons]; omega
  · simp only [stopTailerReg, regErase, List.length_cons]
    exact Nat.lt_succ_of_le (List.length_filter_le _ _)

/-- `listContainers` (scanner.go:145): a lister failure degrades to the
empty snapshot (logged, non-fatal). -/
def listContainers (listerResult : Option (List Container)) : List Container :=
  match listerResult with
  | none => []
  | some containers => containers

/-- `scan` (scanner.go:102): one reconciliation cycle — no-op when a stop
was requested, otherwise monitor the matched containers then stop the
tailers of the unmatched ones. -/
def scan (s : ScannerState) (listerResult : Option (List Container))
    (tailFromBeginning : Bool) : Except String ScannerState :=
  if s.shouldStop then Except.ok s
  else
    match monitorAll s.sources (listContainers listerResult)
        tailFromBeginning [] s.tailers with
    | Except.error e => Except.error e
    | Except.ok (toMonitor, tailers) =>
      Except.ok { s with tailers := stopOld tailers toMonitor }

/-- `setup` (scanner.go:183): error when no container source is configured
or the docker client cannot be built; otherwise run one immediate
reconciliation in "resume" mode (`scan(false)`). `clientOk` stands for the
external `client.NewEnvClient()` outcome. -/
def scannerSetup (s : ScannerState) (clientOk : Bool)
    (listerResult : Option (List Container)) : Except String ScannerState :=
  if s.sources.length = 0 then Except.error "No container source defined"
  else if !clientOk then Except.error "Can't initialize client"
  else scan s listerResult false

/-- `Start` (scanner.go:66): run `setup`; launch the background loop
(`go s.run()`) only when it returned no error. `Start` itself returns no
error to its caller — the model's second component only reports whether
the loop was launched. -/
def scannerStart (s : ScannerState) (clientOk : Bool)
    (listerResult : Option (List Container)) : ScannerState × Bool :=
  match scannerSetup s clientOk listerResult with
  | Except.ok s' => (s', true)
  | Except.error _ => (s, false)

/-! ## FileProvider (pkg/logs/input/tailer file provider) -/

/-- A file source as consumed by `FilesToTail`: its configured path plus a
status sink (identified here by the source's position in the list,
which stands for the Go `*config.LogSource` identity). -/
structure FPSource where
  path : String
deriving DecidableEq, Repr

/-- `File`: the pair {discovered path, owning source}; the owning source is
identified by its index in the provider's source list. -/
structure FPFile where
  path : String
  sourceIdx : Nat
deriving DecidableEq, Repr

/-- The two non-fatal discovery errors recorded on a source's status sink. -/
inductive GlobErr where
  | malformed
  | noMatch
deriving DecidableEq, Repr

/-- `containsWildcards` (file provider): `strings.ContainsAny(path, "*?[")`. -/
def containsWildcards (path : String) : Bool :=
  path.toList.any (fun c => c == '*' || c == '?' || c == '[')

/-- The filesystem as seen through `filepath.Glob`: `none` is a malformed
pattern (`Glob` returned an error), `some l` the matches it reported, in
order. -/
abbrev GlobFn := String → Option (List String)

/-- The loop of `FilesToTail`: sources are consumed in order while the
result count is below `filesLimit`; a literal path is appended directly, a
wildcarded path is expanded and its matches appended until the limit,
and a failed or empty expansion records one error on the source's status
and moves on. `i` is the index of the current source. -/
def filesToTailLoop (glob : GlobFn) (filesLimit : Nat) (i : Nat)
    (sources : List FPSource) (files : List FPFile)
    (errs : List (Nat × GlobErr)) : List FPFile × List (Nat × GlobErr) :=
  match sources with
  | [] => (files, errs)
  | source :: rest =>
    if files.length < filesLimit then
      if !containsWildcards source.path then
        filesToTailLoop glob filesLimit (i + 1) rest
          (files ++ [{ path := source.path, sourceIdx := i }]) errs
      else
        match glob source.path with
        | none =>
          filesToTailLoop glob filesLimit (i + 1) rest files
            (errs ++ [(i, GlobErr.malformed)])
        | some [] =>
          filesToTailLoop glob filesLimit (i + 1) rest files
            (errs ++ [(i, GlobErr.noMatch)])
        | some paths =>
          filesToTailLoop glob filesLimit (i + 1) rest
            (files ++ (paths.take (filesLimit - files.length)).map
              (fun p => { path := p, sourceIdx := i })) errs
    else (files, errs)

/-- `FilesToTail`: all the files matching the sources' paths, never more
than `filesLimit`, together with the errors recorded on the sources'
status sinks. -/
def FilesToTail (glob : GlobFn) (filesLimit : Nat) (sources : List FPSource) :
    List FPFile × List (Nat × GlobErr) :=
  filesToTailLoop glob filesLimit 0 sources [] []

/-- The files one source contributes when the ceiling does not interfere:
its literal path, or every glob match in reported order, or nothing when
the expansion fails or is empty. -/
def sourceFiles (glob : GlobFn) (i : Nat) (source : FPSource) : List FPFile :=
  if !containsWildcards source.path then [{ path := source.path, sourceIdx := i }]
  else
    match glob source.path with
    | none => []
    | some [] => []
    | some paths => paths.map (fun p => { path := p, sourceIdx := i })

/-- The error one source records when it is processed: exactly one for a
wildcarded path whose expansion fails or is empty, none otherwise. -/
def sourceErrs (glob : GlobFn) (i : Nat) (source : FPSource) :
    List (Nat × GlobErr) :=
  if !containsWildcards source.path then []
  else
    match glob source.path with
    | none => [(i, GlobErr.malformed)]
    | some [] => [(i, GlobErr.noMatch)]
    | some _ => []

/-- The unbounded concatenation of every source's contribution, in source
order, starting at index `i`. -/
def allFilesFrom (glob : GlobFn) (i : Nat) : List FPSource → List FPFile
  | [] => []
  | source :: rest => sourceFiles glob i source ++ allFilesFrom glob (i + 1) rest

/-- Every error recorded when no ceiling interferes, in source order. -/
def allErrsFrom (glob : GlobFn) (i : Nat) : List FPSource → List (Nat × GlobErr)
  | [] => []
  | source :: rest => sourceErrs glob i source ++ allErrsFrom glob (i + 1) rest

/-! ## eventFanout (docker container-event fan-out) -/

/-- `fanout.Config`: `WriteTimeout` is a Go `time.Duration`, an `int64`
count of nanoseconds, hence `Int`; `OutputBufferSize` a channel capacity;
`Name` the fan-out's name. -/
structure FanoutConfig where
  writeTimeout : Int
  outputBufferSize : Nat
  name : String
deriving DecidableEq, Repr

/-- `eventOutput`: one subscription's buffered data and error channels
(modelled by their capacities) and its write timeout. -/
structure EventOutput where
  dataOutputCap : Nat
  errorOutputCap : Nat
  writeTimeout : Int
deriving DecidableEq, Repr

/-- The `eventFanout` state: the validated config, whether the producer
input channels are allocated (non-nil), the number of queued stop signals
(`stopChan` has capacity 1), the subscription mapping and the `running`
flag owned by the dispatch loop. -/
structure EventFanout where
  config : FanoutConfig
  hasInputs : Bool
  stopPending : Nat
  listeners : List (String × EventOutput)
  running : Bool
deriving DecidableEq, Repr

/-- Go `delete(f.listeners, name)`. -/
def listenersErase (m : List (String × EventOutput)) (k : String) :
    List (String × EventOutput) :=
  m.filter (fun p => !(p.1 == k))

/-- `f.listeners[name] = out`. -/
def listenersInsert (m : List (String × EventOutput)) (k : String)
    (v : EventOutput) : List (String × EventOutput) :=
  (k, v) :: listenersErase m k

/-- `eventFanout.Setup`: validate the config (`WriteTimeout.Nanoseconds()
== 0`, `OutputBufferSize == 0`, `Name == ""` are each rejected), then
replace the config, allocate fresh input channels and a fresh stop channel
and empty the subscription mapping. On a validation error the receiver is
untouched and `(nil, nil, err)` is returned. -/
def fanoutSetup (f : EventFanout) (cfg : FanoutConfig) :
    EventFanout × Except String Unit :=
  if cfg.writeTimeout == 0 then
    (f, Except.error "WriteTimeout must be higher than 0")
  else if cfg.outputBufferSize == 0 then
    (f, Except.error "OutputBufferSize must be higher than 0")
  else if cfg.name == "" then
    (f, Except.error "Name can't be empty")
  else
    ({ config := cfg, hasInputs := true, stopPending := 0, listeners := []
       running := f.running }, Except.ok ())

/-- `eventFanout.Suscribe`: reject a name that is already subscribed;
otherwise allocate an output pair — the data channel buffered to
`OutputBufferSize`, the error channel to 2 — store it under `name` and
return it. (`go f.dispatch()` is launched when `running` is false; the
loop marks itself running under the lock, modelled by `dispatchStart`.) -/
def fanoutSuscribe (f : EventFanout) (name : String) :
    EventFanout × Except String EventOutput :=
  if (assocFind? f.listeners name).isSome then
    (f, Except.error ("listener " ++ name ++ " is already suscribed to " ++
      f.config.name))
  else
    let out : EventOutput :=
      { dataOutputCap := f.config.outputBufferSize
        errorOutputCap := 2
        writeTimeout := f.config.writeTimeout }
    ({ f with listeners := listenersInsert f.listeners name out },
     Except.ok out)

/-- The first action of `dispatch`: mark the instance running. -/
def dispatchStart (f : EventFanout) : EventFanout :=
  { f with running := true }

/-- `eventFanout.UnsuscribeWithError`: reject an unknown name; otherwise
close the subscription's outputs (sending `err` first — an effect on the
external channel, not on this state), delete it, and when that empties the
mapping while the loop runs, queue a stop signal and report `true`
(automatic stop). -/
def fanoutUnsuscribeWithError (f : EventFanout) (name : String)
    (_err : String) : EventFanout × Except String Bool :=
  if (assocFind? f.listeners name).isNone then
    (f, Except.error ("listener " ++ name ++ " is not suscribed to " ++
      f.config.name))
  else
    let listeners' := listenersErase f.listeners name
    if f.running && listeners'.length == 0 then
      ({ f with listeners := listeners', stopPending := f.stopPending + 1 },
       Except.ok true)
    else
      ({ f with listeners := listeners' }, Except.ok false)

/-- `eventFanout.Unsuscribe`: unsubscribe with the end-of-stream error
(`io.EOF`). -/
def fanoutUnsuscribe (f : EventFanout) (name : String) :
    EventFanout × Except String Bool :=
  fanoutUnsuscribeWithError f name "EOF"

/-- `eventFanout.Stop`: queue a stop signal on `stopChan`. -/
def fanoutStop (f : EventFanout) : EventFanout :=
  { f with stopPending := f.stopPending + 1 }

/-- The dispatch loop's handling of a stop signal (part_003 lines 84-92):
consume the signal, close and remove every remaining subscription, mark
not running, and exit. -/
def dispatchHandleStop (f : EventFanout) : EventFanout :=
  { f with listeners := [], running := false, stopPending := f.stopPending - 1 }

/-! ## Concrete fan-out states used in the theorems below -/

/-- A zero-valued `eventFanout` (the Go zero value of the struct). -/
def fanout0 : EventFanout :=
  { config := { writeTimeout := 0, outputBufferSize := 0, name := "" }
    hasInputs := false, stopPending := 0, listeners := [], running := false }

/-- A fan-out configured with `WriteTimeout = 1000ns`,
`OutputBufferSize = 5`, `Name = "dock"`. -/
def fanout5 : EventFanout :=
  (fanoutSetup fanout0
    { writeTimeout := 1000, outputBufferSize := 5, name := "dock" }).1

/-- `fanout5` after subscribing the listener `"sub"`. -/
def fanoutSub : EventFanout := (fanoutSuscribe fanout5 "sub").1

/-- `fanoutSub` once its dispatch loop has marked itself running. -/
def fanoutRun : EventFanout := dispatchStart fanoutSub

/-- If every listener entry is keyed by `name`, deleting `name` empties the
mapping. -/
theorem listenersErase_eq_nil (m : List (String × EventOutput)) (name : String)
    (h : ∀ p ∈ m, p.1 = name) : listenersErase m name = [] := by
  unfold listenersErase
  rw [List.filter_eq_nil_iff]
  intro p hp
  simp [h p hp]

/-- C4: `Setup` validates `WriteTimeout` with `Nanoseconds() == 0`, so the
negative duration `-1ns` — for which `writeTimeout > 0` fails to hold — is
accepted: `Setup` returns `ok` and allocates the input channels, although
the validation's own error message says "WriteTimeout must be higher than
0". -/
theorem fanoutSetup_accepts_negative_writeTimeout :
    ¬((-1 : Int) > 0) ∧
    (fanoutSetup fanout0
      { writeTimeout := -1, outputBufferSize := 1, name := "x" }).2 =
      Except.ok () ∧
    (fanoutSetup fanout0
      { writeTimeout := -1, outputBufferSize := 1, name := "x" }).1.hasInputs =
      true :=
  ⟨by decide, rfl, rfl⟩

/-- C5 counterexample: after `Setup` with `OutputBufferSize = 5`,
`Suscribe` returns an output pair whose error channel is buffered to the
fixed capacity 2, not to the configured 5 as the claim states. -/
theorem fanoutSuscribe_errorBuffer_counterexample :
    fanout5.config.outputBufferSize = 5 ∧
    (fanoutSuscribe fanout5 "sub").2 = Except.ok
      { dataOutputCap := 5, errorOutputCap := 2, writeTimeout := 1000 } ∧
    (2 : Nat) ≠ 5 :=
  ⟨rfl, rfl, by decide⟩

/-- The subscription `Suscribe` builds (part_003 line 51): data channel
buffered to the configured `OutputBufferSize`, error channel to 2, the
configured write timeout. -/
def suscribeOutput (f : EventFanout) : EventOutput :=
  { dataOutputCap := f.config.outputBufferSize
    errorOutputCap := 2
    writeTimeout := f.config.writeTimeout }

/-- C5 (amended): for a name not yet subscribed, `Suscribe` stores and
returns a subscription whose data output is buffered to the configured
`OutputBufferSize`, whose error output is buffered to the fixed capacity
2, and whose write timeout is the configured one. -/
theorem fanoutSuscribe_allocates (f : EventFanout) (name : String)
    (hnew : (assocFind? f.listeners name).isSome = false) :
    fanoutSuscribe f name =
      ({ f with listeners :=
          listenersInsert f.listeners name (suscribeOutput f) },
       Except.ok (suscribeOutput f)) ∧
    (suscribeOutput f).dataOutputCap = f.config.outputBufferSize ∧
    (suscribeOutput f).errorOutputCap = 2 ∧
    (suscribeOutput f).writeTimeout = f.config.writeTimeout := by
  refine ⟨?_, rfl, rfl, rfl⟩
  unfold fanoutSuscribe suscribeOutput
  simp [hnew]

theorem fanoutSuscribe_allocates_witness :
    (assocFind? fanout5.listeners "nine").isSome = false ∧
    (fanoutSuscribe fanout5 "nine" =
      ({ fanout5 with listeners :=
          listenersInsert fanout5.listeners "nine" (suscribeOutput fanout5) },
       Except.ok (suscribeOutput fanout5)) ∧
     (suscribeOutput fanout5).dataOutputCap =
       fanout5.config.outputBufferSize ∧
     (suscribeOutput fanout5).errorOutputCap = 2 ∧
     (suscribeOutput fanout5).writeTimeout = fanout5.config.writeTimeout) :=
  ⟨rfl, fanoutSuscribe_allocates fanout5 "nine" rfl⟩

/-- C6: removing the last remaining subscription of a running fan-out
queues a stop signal for the dispatch loop and reports the automatic stop
(`true`); once the loop consumes the signal the instance is not running
and its subscription mapping is empty — with no `Stop` call involved. -/
theorem lastUnsuscribe_autoStops (f : EventFanout) (name err : String)
    (hrun : f.running = true)
    (hmem : (assocFind? f.listeners name).isSome = true)
    (hlast : ∀ p ∈ f.listeners, p.1 = name) :
    ∃ f', fanoutUnsuscribeWithError f name err = (f', Except.ok true) ∧
      f'.stopPending = f.stopPending + 1 ∧
      f'.listeners = [] ∧
      (dispatchHandleStop f').running = false ∧
      (dispatchHandleStop f').listeners = [] := by
  have herase := listenersErase_eq_nil f.listeners name hlast
  have hnone : (assocFind? f.listeners name).isNone = false := by
    cases h : assocFind? f.listeners name <;> simp_all
  refine ⟨{ f with listeners := [], stopPending := f.stopPending + 1 },
    ?_, rfl, rfl, rfl, rfl⟩
  unfold fanoutUnsuscribeWithError
  simp [hnone, herase, hrun]

theorem lastUnsuscribe_autoStops_witness :
    fanoutRun.running = true ∧
    (assocFind? fanoutRun.listeners "sub").isSome = true ∧
    (∀ p ∈ fanoutRun.listeners, p.1 = "sub") ∧
    (∃ f', fanoutUnsuscribeWithError fanoutRun "sub" "gone" =
        (f', Except.ok true) ∧
      f'.stopPending = fanoutRun.stopPending + 1 ∧
      f'.listeners = [] ∧
      (dispatchHandleStop f').running = false ∧
      (dispatchHandleStop f').listeners = []) :=
  ⟨rfl, rfl, by decide,
   lastUnsuscribe_autoStops fanoutRun "sub" "gone" rfl rfl (by decide)⟩

/-- C7: subscribing an already-subscribed name, and unsubscribing an
unknown name, each return an error synchronously with the fan-out state —
mapping, channels and running flag — exactly as before the call. -/
theorem fanout_misuse_no_mutation (f : EventFanout) (name err : String) :
    ((assocFind? f.listeners name).isSome = true →
      ∃ e, fanoutSuscribe f name = (f, Except.error e)) ∧
    ((assocFind? f.listeners name).isSome = false →
      ∃ e, fanoutUnsuscribeWithError f name err = (f, Except.error e)) := by
  constructor
  · intro hmem
    refine ⟨"listener " ++ name ++ " is already suscribed to " ++
      f.config.name, ?_⟩
    unfold fanoutSuscribe
    simp [hmem]
  · intro hsome
    have hnone : (assocFind? f.listeners name).isNone = true := by
      cases h : assocFind? f.listeners name <;> simp_all
    refine ⟨"listener " ++ name ++ " is not suscribed to " ++
      f.config.name, ?_⟩
    unfold fanoutUnsuscribeWithError
    simp [hnone]

theorem fanout_misuse_no_mutation_witness :
    (∃ e, fanoutSuscribe fanoutSub "sub" = (fanoutSub, Except.error e)) ∧
    (∃ e, fanoutUnsuscribeWithError fanoutSub "nope" "x" =
      (fanoutSub, Except.error e)) :=
  ⟨(fanout_misuse_no_mutation fanoutSub "sub" "x").1 rfl,
   (fanout_misuse_no_mutation fanoutSub "nope" "x").2 rfl⟩

/-! ## C2: the claimed match predicate versus the code's -/

/-- The match predicate exactly as the claim words it: "if the source
specifies an image, the container's image must equal it exactly, otherwise
no match; **else** if the source specifies labels ..." — so with an image
configured the result is image equality alone, and the label filter is
consulted only when no image is set. -/
def specMatchPredicate (source : LogSource) (container : Container) : Bool :=
  if source.image != "" then container.image == source.image
  else if source.label != "" then
    (goSplitComma source.label).any (labelEntryMatches container.labels)
  else true

/-- C2 counterexample: for a source that configures both an image and a
label filter, the claimed predicate makes the image decisive, but the code
additionally requires a label entry to match: with image `"nginx"`, label
`"env:prod"` and a container of image `"nginx"` carrying no labels, the
claimed predicate matches while `sourceShouldMonitorContainer` does not. -/
theorem sourceShouldMonitorContainer_both_filters_counterexample :
    specMatchPredicate
      { type_ := LogType.docker, image := "nginx", label := "env:prod" }
      { id := "abcdefabcdef", image := "nginx", labels := [] } = true ∧
    sourceShouldMonitorContainer
      { type_ := LogType.docker, image := "nginx", label := "env:prod" }
      { id := "abcdefabcdef", image := "nginx", labels := [] } = false :=
  ⟨by decide, by decide⟩

/-- C2 (amended): `sourceShouldMonitorContainer` is the **conjunction** of
the two filters — the image must match exactly whenever one is configured,
and additionally some comma-split, whitespace-trimmed label entry must
match (as a literal key, or as a `key:value` / `key=value` pair) whenever
a label filter is configured; with neither configured every container
matches. The spec's table rows hold as stated. -/
theorem sourceShouldMonitorContainer_spec :
    (∀ (source : LogSource) (container : Container),
      sourceShouldMonitorContainer source container =
        ((source.image == "" || container.image == source.image) &&
         (source.label == "" ||
           (goSplitComma source.label).any
             (labelEntryMatches container.labels)))) ∧
    (sourceShouldMonitorContainer ⟨LogType.docker, "nginx", ""⟩
      ⟨"i", "nginx", []⟩ = true ∧
     sourceShouldMonitorContainer ⟨LogType.docker, "nginx", ""⟩
      ⟨"i", "nginx:latest", []⟩ = false) ∧
    (sourceShouldMonitorContainer ⟨LogType.docker, "", "env:prod"⟩
      ⟨"i", "x", [("env", "prod")]⟩ = true ∧
     sourceShouldMonitorContainer ⟨LogType.docker, "", "env:prod"⟩
      ⟨"i", "x", [("env", "staging")]⟩ = false) ∧
    (sourceShouldMonitorContainer ⟨LogType.docker, "", "foo"⟩
      ⟨"i", "x", [("foo", "anything")]⟩ = true ∧
     sourceShouldMonitorContainer ⟨LogType.docker, "", "foo"⟩
      ⟨"i", "x", [("bar", "foo")]⟩ = false) ∧
    (sourceShouldMonitorContainer ⟨LogType.docker, "", "a:b, c"⟩
      ⟨"i", "x", [("a", "b")]⟩ = true ∧
     sourceShouldMonitorContainer ⟨LogType.docker, "", "a:b, c"⟩
      ⟨"i", "x", [("c", "z")]⟩ = true ∧
     sourceShouldMonitorContainer ⟨LogType.docker, "", "a:b, c"⟩
      ⟨"i", "x", [("d", "z")]⟩ = false) := by
  refine ⟨?_, ⟨by decide, by decide⟩, ⟨by decide, by decide⟩,
    ⟨by decide, by decide⟩, ⟨by decide, by decide, by decide⟩⟩
  intro source container
  unfold sourceShouldMonitorContainer
  by_cases h1 : source.image = ""
  · by_cases h3 : source.label = "" <;> simp [h1, h3]
  · by_cases h2 : container.image = source.image
    · by_cases h3 : source.label = "" <;> simp [h1, h2, h3]
    · simp [h1, h2]

/-! ## FileProvider lemmas -/

/-- Truncating the middle list to the room left after `a` does not change a
truncated concatenation. -/
theorem take_append_take {α : Type} (n : Nat) (a b c : List α) :
    (a ++ (b.take (n - a.length) ++ c)).take n = (a ++ (b ++ c)).take n := by
  induction a generalizing n with
  | nil =>
    simp only [List.nil_append, List.length_nil, Nat.sub_zero]
    simp only [List.take_append_eq_append_take, List.take_take, min_self,
      List.length_take]
    have hmin : n - min n b.length = n - b.length := by omega
    rw [hmin]
  | cons h t ih =>
    cases n with
    | zero => simp
    | succ m =>
      simp only [List.cons_append, List.take_succ_cons, List.length_cons]
      have hsub : m + 1 - (t.length + 1) = m - t.length := by omega
      rw [hsub, ih m]

/-- The accumulated files of `filesToTailLoop` are the truncation, at the
ceiling, of the accumulator followed by every source's contribution in
order. -/
theorem filesToTailLoop_files (glob : GlobFn) (limit : Nat) :
    ∀ (sources : List FPSource) (i : Nat) (files : List FPFile)
      (errs : List (Nat × GlobErr)), files.length ≤ limit →
      (filesToTailLoop glob limit i sources files errs).1 =
        (files ++ allFilesFrom glob i sources).take limit := by
  intro sources
  induction sources with
  | nil =>
    intro i files errs hle
    simp only [filesToTailLoop, allFilesFrom, List.append_nil]
    exact (List.take_of_length_le hle).symm
  | cons source rest ih =>
    intro i files errs hle
    simp only [filesToTailLoop, allFilesFrom]
    by_cases hlt : files.length < limit
    · simp only [hlt, if_true]
      by_cases hw : containsWildcards source.path
      · simp only [hw, Bool.not_true, Bool.false_eq_true, if_false]
        cases hg : glob source.path with
        | none =>
          simp only [sourceFiles, hw, Bool.not_true, Bool.false_eq_true,
            if_false, hg]
          rw [ih (i + 1) files _ hle]
          simp
        | some paths =>
          cases paths with
          | nil =>
            simp only [sourceFiles, hw, Bool.not_true, Bool.false_eq_true,
              if_false, hg]
            rw [ih (i + 1) files _ hle]
            simp
          | cons p ps =>
            simp only [sourceFiles, hw, Bool.not_true, Bool.false_eq_true,
              if_false, hg]
            rw [ih (i + 1) _ _ ?hlen]
            case hlen =>
              simp only [List.length_append, List.length_map,
                List.length_take]
              omega
            rw [List.map_take, List.append_assoc]
            exact take_append_take limit files _ _
      · simp only [hw, Bool.not_false, if_true]
        simp only [sourceFiles, hw, Bool.not_false, if_true]
        rw [ih (i + 1) _ _ ?hlen1]
        case hlen1 => simp only [List.length_append, List.length_cons,
          List.length_nil]; omega
        rw [List.append_assoc]
    · simp only [hlt, if_false]
      have heq : files.length = limit := Nat.le_antisymm hle
        (Nat.le_of_not_lt hlt)
      exact (List.take_left' heq).symm

/-- C3: `FilesToTail` returns exactly the first `filesLimit` entries of the
in-order concatenation of every source's contribution — sources in
source-list order, glob matches in reported order, truncated the instant
the ceiling is reached even inside one source's expansion — and in
particular never more than `filesLimit` entries. -/
theorem FilesToTail_respects_limit (glob : GlobFn) (filesLimit : Nat)
    (sources : List FPSource) :
    (FilesToTail glob filesLimit sources).1 =
      (allFilesFrom glob 0 sources).take filesLimit ∧
    (FilesToTail glob filesLimit sources).1.length ≤ filesLimit := by
  have h := filesToTailLoop_files glob filesLimit sources 0 [] []
    (by simp)
  refine ⟨by simpa using h, ?_⟩
  rw [FilesToTail] at *
  rw [h]
  exact List.length_take_le filesLimit _

/-- When the ceiling leaves room for every discoverable file, the loop
processes every source completely: it returns all contributions and all
recorded errors in order. -/
theorem filesToTailLoop_no_ceiling (glob : GlobFn) (limit : Nat) :
    ∀ (sources : List FPSource) (i : Nat) (files : List FPFile)
      (errs : List (Nat × GlobErr)),
      files.length + (allFilesFrom glob i sources).length < limit →
      filesToTailLoop glob limit i sources files errs =
        (files ++ allFilesFrom glob i sources,
         errs ++ allErrsFrom glob i sources) := by
  intro sources
  induction sources with
  | nil =>
    intro i files errs _
    simp [filesToTailLoop, allFilesFrom, allErrsFrom]
  | cons source rest ih =>
    intro i files errs hroom
    have hlt : files.length < limit := by
      refine Nat.lt_of_le_of_lt ?_ hroom
      exact Nat.le_add_right _ _
    simp only [filesToTailLoop, allFilesFrom, allErrsFrom, hlt, if_true]
    by_cases hw : containsWildcards source.path
    · simp only [hw, Bool.not_true, Bool.false_eq_true, if_false]
      cases hg : glob source.path with
      | none =>
        simp only [sourceFiles, sourceErrs, hw, Bool.not_true,
          Bool.false_eq_true, if_false, hg]
        rw [ih (i + 1) files _ ?hr1]
        case hr1 =>
          simp only [allFilesFrom, sourceFiles, hw, Bool.not_true,
            Bool.false_eq_true, if_false, hg] at hroom
          simpa using hroom
        simp
      | some paths =>
        cases paths with
        | nil =>
          simp only [sourceFiles, sourceErrs, hw, Bool.not_true,
            Bool.false_eq_true, if_false, hg]
          rw [ih (i + 1) files _ ?hr2]
          case hr2 =>
            simp only [allFilesFrom, sourceFiles, hw, Bool.not_true,
              Bool.false_eq_true, if_false, hg] at hroom
            simpa using hroom
          simp
        | cons p ps =>
          have hfull : (p :: ps).length ≤ limit - files.length := by
            simp only [allFilesFrom, sourceFiles, hw, Bool.not_true,
              Bool.false_eq_true, if_false, hg, List.length_append,
              List.length_map] at hroom
            omega
          simp only [sourceFiles, sourceErrs, hw, Bool.not_true,
            Bool.false_eq_true, if_false, hg]
          rw [List.take_of_length_le hfull]
          rw [ih (i + 1) _ _ ?hr3]
          case hr3 =>
            simp only [allFilesFrom, sourceFiles, hw, Bool.not_true,
              Bool.false_eq_true, if_false, hg, List.length_append] at hroom ⊢
            omega
          simp [List.append_assoc]
    · simp only [hw, Bool.not_false, if_true]
      simp only [sourceFiles, sourceErrs, hw, Bool.not_false, if_true]
      rw [ih (i + 1) _ _ ?hr4]
      case hr4 =>
        simp only [allFilesFrom, sourceFiles, hw, Bool.not_false, if_true,
          List.length_append, List.length_cons, List.length_nil] at hroom ⊢
        omega
      simp [List.append_assoc]

/-- Every error a source records carries that source's own index. -/
theorem sourceErrs_idx (glob : GlobFn) (i : Nat) (source : FPSource) :
    ∀ e ∈ sourceErrs glob i source, e.1 = i := by
  intro e he
  unfold sourceErrs at he
  by_cases hw : containsWildcards source.path
  · simp only [hw, Bool.not_true, Bool.false_eq_true, if_false] at he
    cases hg : glob source.path with
    | none => rw [hg] at he; simp at he; simp [he]
    | some paths =>
      cases paths with
      | nil => rw [hg] at he; simp at he; simp [he]
      | cons p ps => rw [hg] at he; simp at he
  · simp [hw] at he

/-- Every file a source contributes carries that source's own index. -/
theorem sourceFiles_idx (glob : GlobFn) (i : Nat) (source : FPSource) :
    ∀ f ∈ sourceFiles glob i source, f.sourceIdx = i := by
  intro f hf
  unfold sourceFiles at hf
  by_cases hw : containsWildcards source.path
  · simp only [hw, Bool.not_true, Bool.false_eq_true, if_false] at hf
    cases hg : glob source.path with
    | none => rw [hg] at hf; simp at hf
    | some paths =>
      cases paths with
      | nil => rw [hg] at hf; simp at hf
      | cons p ps =>
        rw [hg] at hf
        obtain ⟨q, _, hq⟩ := List.mem_map.mp hf
        rw [← hq]
  · simp only [hw, Bool.not_false, if_true, List.mem_singleton] at hf
    rw [hf]

/-- Indices recorded from position `i` onward are at least `i`. -/
theorem allErrsFrom_idx_ge (glob : GlobFn) :
    ∀ (sources : List FPSource) (i : Nat) (e : Nat × GlobErr),
      e ∈ allErrsFrom glob i sources → i ≤ e.1 := by
  intro sources
  induction sources with
  | nil => intro i e he; simp [allErrsFrom] at he
  | cons s rest ih =>
    intro i e he
    simp only [allErrsFrom, List.mem_append] at he
    rcases he with he | he
    · rw [sourceErrs_idx glob i s e he]
    · exact Nat.le_of_succ_le (ih (i + 1) e he)

/-- File indices recorded from position `i` onward are at least `i`. -/
theorem allFilesFrom_idx_ge (glob : GlobFn) :
    ∀ (sources : List FPSource) (i : Nat) (f : FPFile),
      f ∈ allFilesFrom glob i sources → i ≤ f.sourceIdx := by
  intro sources
  induction sources with
  | nil => intro i f hf; simp [allFilesFrom] at hf
  | cons s rest ih =>
    intro i f hf
    simp only [allFilesFrom, List.mem_append] at hf
    rcases hf with hf | hf
    · rw [sourceFiles_idx glob i s f hf]
    · exact Nat.le_of_succ_le (ih (i + 1) f hf)

/-- Restricting the recorded errors to the `j`-th source's index recovers
exactly that source's own (zero or one) error. -/
theorem allErrsFrom_filter (glob : GlobFn) :
    ∀ (sources : List FPSource) (i0 j : Nat) (source : FPSource),
      sources[j]? = some source →
      (allErrsFrom glob i0 sources).filter (fun e => e.1 == i0 + j) =
        sourceErrs glob (i0 + j) source := by
  intro sources
  induction sources with
  | nil => intro i0 j source hget; simp at hget
  | cons s rest ih =>
    intro i0 j source hget
    cases j with
    | zero =>
      simp only [List.getElem?_cons_zero, Option.some.injEq] at hget
      rw [← hget]
      simp only [allErrsFrom, List.filter_append, Nat.add_zero]
      have h1 : (sourceErrs glob i0 s).filter (fun e => e.1 == i0) =
          sourceErrs glob i0 s := by
        apply List.filter_eq_self.mpr
        intro e he
        simp [sourceErrs_idx glob i0 s e he]
      have h2 : (allErrsFrom glob (i0 + 1) rest).filter
          (fun e => e.1 == i0) = [] := by
        apply List.filter_eq_nil_iff.mpr
        intro e he
        have := allErrsFrom_idx_ge glob rest (i0 + 1) e he
        simp only [beq_iff_eq]
        omega
      rw [h1, h2, List.append_nil]
    | succ jj =>
      simp only [List.getElem?_cons_succ] at hget
      simp only [allErrsFrom, List.filter_append]
      rw [List.filter_eq_nil_iff.mpr, List.nil_append]
      · have harith : i0 + (jj + 1) = (i0 + 1) + jj := by omega
        rw [harith]
        exact ih (i0 + 1) jj source hget
      · intro e he
        have := sourceErrs_idx glob i0 s e he
        simp only [beq_iff_eq]
        omega

/-- Restricting the discovered files to the `j`-th source's index recovers
exactly that source's own contribution. -/
theorem allFilesFrom_filter (glob : GlobFn) :
    ∀ (sources : List FPSource) (i0 j : Nat) (source : FPSource),
      sources[j]? = some source →
      (allFilesFrom glob i0 sources).filter (fun f => f.sourceIdx == i0 + j) =
        sourceFiles glob (i0 + j) source := by
  intro sources
  induction sources with
  | nil => intro i0 j source hget; simp at hget
  | cons s rest ih =>
    intro i0 j source hget
    cases j with
    | zero =>
      simp only [List.getElem?_cons_zero, Option.some.injEq] at hget
      rw [← hget]
      simp only [allFilesFrom, List.filter_append, Nat.add_zero]
      have h1 : (sourceFiles glob i0 s).filter (fun f => f.sourceIdx == i0) =
          sourceFiles glob i0 s := by
        apply List.filter_eq_self.mpr
        intro f hf
        simp [sourceFiles_idx glob i0 s f hf]
      have h2 : (allFilesFrom glob (i0 + 1) rest).filter
          (fun f => f.sourceIdx == i0) = [] := by
        apply List.filter_eq_nil_iff.mpr
        intro f hf
        have := allFilesFrom_idx_ge glob rest (i0 + 1) f hf
        simp only [beq_iff_eq]
        omega
      rw [h1, h2, List.append_nil]
    | succ jj =>
      simp only [List.getElem?_cons_succ] at hget
      simp only [allFilesFrom, List.filter_append]
      rw [List.filter_eq_nil_iff.mpr, List.nil_append]
      · have harith : i0 + (jj + 1) = (i0 + 1) + jj := by omega
        rw [harith]
        exact ih (i0 + 1) jj source hget
      · intro f hf
        have := sourceFiles_idx glob i0 s f hf
        simp only [beq_iff_eq]
        omega

/-- C8 counterexample: with ceiling 1, the literal source `"a.log"` fills
the result before the wildcarded source `"*.log"` is reached, so although
that source's expansion fails (`Glob` errors on it), **no** error at all is
recorded — the loop exits without processing it, contradicting the claim
that such a source always records exactly one error. -/
theorem filesToTail_ceiling_skips_error :
    containsWildcards "*.log" = true ∧
    (fun _ => (none : Option (List String)) : GlobFn) "*.log" = none ∧
    FilesToTail (fun _ => none) 1 [{ path := "a.log" }, { path := "*.log" }] =
      ([{ path := "a.log", sourceIdx := 0 }], []) :=
  ⟨by decide, rfl, rfl⟩

/-- C8 (amended): provided the ceiling is not reached — every discoverable
file fits strictly below the limit — `FilesToTail` processes every source:
it returns each source's full contribution in order together with the
recorded errors; a wildcarded source whose expansion fails or is empty
contributes zero files and records exactly one error on its own status
sink, and every remaining source still contributes its own files. -/
theorem FilesToTail_error_isolation (glob : GlobFn) (limit : Nat)
    (sources : List FPSource)
    (hroom : (allFilesFrom glob 0 sources).length < limit) :
    FilesToTail glob limit sources =
      (allFilesFrom glob 0 sources, allErrsFrom glob 0 sources) ∧
    ∀ j source, sources[j]? = some source →
      ((FilesToTail glob limit sources).2.filter (fun e => e.1 == j) =
        sourceErrs glob j source ∧
       (FilesToTail glob limit sources).1.filter
         (fun f => f.sourceIdx == j) = sourceFiles glob j source ∧
       (containsWildcards source.path = true →
        (glob source.path = none ∨ glob source.path = some []) →
        (sourceErrs glob j source).length = 1 ∧
        sourceFiles glob j source = [])) := by
  have hdec : FilesToTail glob limit sources =
      (allFilesFrom glob 0 sources, allErrsFrom glob 0 sources) := by
    unfold FilesToTail
    have := filesToTailLoop_no_ceiling glob limit sources 0 [] []
      (by simpa using hroom)
    simpa using this
  refine ⟨hdec, ?_⟩
  intro j source hget
  rw [hdec]
  refine ⟨?_, ?_, ?_⟩
  · have := allErrsFrom_filter glob sources 0 j source hget
    simpa using this
  · have := allFilesFrom_filter glob sources 0 j source hget
    simpa using this
  · intro hw hg
    unfold sourceErrs sourceFiles
    rcases hg with hg | hg <;> simp [hw, hg]

/-- A concrete glob for the witness below: `"*.log"` matches two files,
`"*e"` matches none, anything else is malformed. -/
def globW : GlobFn := fun p =>
  if p == "*.log" then some ["x.log", "y.log"]
  else if p == "*e" then some [] else none

/-- A concrete source list for the witness below: a literal path, a
malformed pattern, an empty-match pattern and a matching pattern. -/
def srcsW : List FPSource :=
  [{ path := "a.log" }, { path := "[bad" }, { path := "*e" },
   { path := "*.log" }]

theorem FilesToTail_error_isolation_witness :
    (allFilesFrom globW 0 srcsW).length < 10 ∧
    (FilesToTail globW 10 srcsW =
      (allFilesFrom globW 0 srcsW, allErrsFrom globW 0 srcsW) ∧
     ∀ j source, srcsW[j]? = some source →
      ((FilesToTail globW 10 srcsW).2.filter (fun e => e.1 == j) =
        sourceErrs globW j source ∧
       (FilesToTail globW 10 srcsW).1.filter (fun f => f.sourceIdx == j) =
        sourceFiles globW j source ∧
       (containsWildcards source.path = true →
        (globW source.path = none ∨ globW source.path = some []) →
        (sourceErrs globW j source).length = 1 ∧
        sourceFiles globW j source = []))) :=
  ⟨by decide, FilesToTail_error_isolation globW 10 srcsW (by decide)⟩

/-! ## Registry lemmas -/

/-- Lookup after a deletion: the deleted key is gone, others unchanged. -/
theorem regFind_erase (m : Registry) (k id : String) :
    assocFind? (regErase m k) id =
      if id = k then none else assocFind? m id := by
  induction m with
  | nil => simp [regErase, assocFind?]
  | cons p rest ih =>
    obtain ⟨pk, pv⟩ := p
    by_cases hpk : pk = k
    · subst hpk
      have hb : (!(pk == pk)) = false := by simp
      simp only [regErase, List.filter_cons, hb, Bool.false_eq_true,
        if_false] at ih ⊢
      rw [ih]
      by_cases hid : id = pk
      · simp [hid]
      · have hb2 : (pk == id) = false := by simp [Ne.symm hid]
        simp [assocFind?, hid, hb2]
    · have hb : (!(pk == k)) = true := by simp [hpk]
      simp only [regErase, List.filter_cons, hb, if_true] at ih ⊢
      by_cases hid : id = pk
      · have hik : ¬id = k := by rw [hid]; exact hpk
        have hb2 : (pk == id) = true := by simp [hid.symm]
        simp [assocFind?, hb2, hik]
      · have hb2 : (pk == id) = false := by simp [Ne.symm hid]
        simp only [assocFind?, hb2, Bool.false_eq_true, if_false]
        exact ih

/-- Lookup after an insertion: the inserted key is found, others
unchanged. -/
theorem regFind_insert (m : Registry) (k id : String) (v : DockerTailer) :
    assocFind? (regInsert m k v) id =
      if id = k then some v else assocFind? m id := by
  unfold regInsert
  by_cases hid : id = k
  · subst hid
    simp [assocFind?]
  · simp only [assocFind?]
    have hb : (k == id) = false := by simp [Ne.symm hid]
    simp only [hb, Bool.false_eq_true, if_false, regFind_erase, hid,
      if_false]

/-- Deletion preserves the registry invariant. -/
theorem RegistryWF_erase (m : Registry) (k : String) (h : RegistryWF m) :
    RegistryWF (regErase m k) := by
  intro p hp
  exact h p (List.mem_of_mem_filter hp)

/-- Inserting a tailer under its own container ID preserves the registry
invariant. -/
theorem RegistryWF_insert (m : Registry) (k : String) (v : DockerTailer)
    (h : RegistryWF m) (hv : v.containerID = k) :
    RegistryWF (regInsert m k v) := by
  intro p hp
  rcases List.mem_cons.mp hp with hp | hp
  · rw [hp]; exact hv
  · exact RegistryWF_erase m k h p hp

/-- A successful lookup exposes a registry entry. -/
theorem assocFind?_mem (m : Registry) (k : String) (v : DockerTailer) :
    assocFind? m k = some v → (k, v) ∈ m := by
  induction m with
  | nil => intro h; simp [assocFind?] at h
  | cons p rest ih =>
    obtain ⟨pk, pv⟩ := p
    intro h
    simp only [assocFind?] at h
    by_cases hpk : pk = k
    · subst hpk
      simp only [beq_self_eq_true, if_true, Option.some.injEq] at h
      subst h
      exact List.mem_cons_self _ _
    · have : (pk == k) = false := by simp [hpk]
      rw [this] at h
      simp only [Bool.false_eq_true, if_false] at h
      exact List.mem_cons_of_mem _ (ih h)

/-- Membership after marking a container to monitor. -/
theorem mem_setInsert (l : List String) (id x : String) :
    x ∈ setInsert l id ↔ x = id ∨ x ∈ l := by
  unfold setInsert
  by_cases hc : l.contains id
  · simp only [hc, if_true]
    have hidl : id ∈ l := by
      have := List.elem_iff.mp hc
      exact this
    constructor
    · intro h; exact Or.inr h
    · intro h
      rcases h with h | h
      · rw [h]; exact hidl
      · exact h
  · have : l.contains id = false := by
      cases h : l.contains id
      · rfl
      · exact absurd h hc
    simp only [this, Bool.false_eq_true, if_false, List.mem_cons]

/-- Some source in the list matches the container. -/
def matchedAny (sources : List LogSource) (ct : Container) : Prop :=
  ∃ src ∈ sources, sourceShouldMonitorContainer src ct = true

/-- With a long-enough container ID, `setupTailer` succeeds and registers a
fresh tailer under the container's ID. -/
theorem setupTailer_ok (ct : Container) (source : LogSource) (b : Bool)
    (tailers : Registry) (hlen : 12 ≤ goLen ct.id) :
    setupTailer ct source b tailers = Except.ok
      (regInsert tailers ct.id
        { containerID := ct.id, shouldStop := false }) := by
  unfold setupTailer humanReadableContainerID
  rw [if_neg (Nat.not_lt.mpr hlen)]

/-- One container's pass over the sources (the inner loop of `scan`): with
a long-enough ID and a well-formed registry it succeeds, marks the
container's ID exactly when some source matches, leaves the registry
binding that ID exactly when it did before or some source matches, and
preserves the registry invariant. -/
theorem monitorCt_ok (ct : Container) (b : Bool)
    (hlen : 12 ≤ goLen ct.id) :
    ∀ (sources : List LogSource) (toMonitor : List String)
      (tailers : Registry), RegistryWF tailers →
      ∃ tm tl, monitorCt sources ct b toMonitor tailers =
          Except.ok (tm, tl) ∧
        (∀ id, id ∈ tm ↔
          (id ∈ toMonitor ∨ (id = ct.id ∧ matchedAny sources ct))) ∧
        (∀ id, (assocFind? tl id).isSome ↔
          ((assocFind? tailers id).isSome ∨
           (id = ct.id ∧ matchedAny sources ct))) ∧
        RegistryWF tl := by
  intro sources
  induction sources with
  | nil =>
    intro toMonitor tailers hwf
    refine ⟨toMonitor, tailers, rfl, ?_, ?_, hwf⟩
    · intro id; simp [matchedAny]
    · intro id; simp [matchedAny]
  | cons source rest ih =>
    intro toMonitor tailers hwf
    cases hm : sourceShouldMonitorContainer source ct with
    | false =>
      have hMA : matchedAny (source :: rest) ct ↔ matchedAny rest ct := by
        unfold matchedAny
        constructor
        · rintro ⟨src, hsrc, hmt⟩
          rcases List.mem_cons.mp hsrc with h | h
          · rw [h] at hmt; rw [hmt] at hm; cases hm
          · exact ⟨src, h, hmt⟩
        · rintro ⟨src, hsrc, hmt⟩
          exact ⟨src, List.mem_cons_of_mem _ hsrc, hmt⟩
      obtain ⟨tm, tl, heq, htm, htl, hwf'⟩ := ih toMonitor tailers hwf
      refine ⟨tm, tl, ?_, ?_, ?_, hwf'⟩
      · simp only [monitorCt, hm, Bool.false_eq_true, if_false]
        exact heq
      · intro id; rw [htm id, hMA]
      · intro id; rw [htl id, hMA]
    | true =>
      have hMA : matchedAny (source :: rest) ct :=
        ⟨source, List.mem_cons_self _ _, hm⟩
      cases hf : assocFind? tailers ct.id with
      | none =>
        have hwf2 : RegistryWF (regInsert tailers ct.id
            { containerID := ct.id, shouldStop := false }) :=
          RegistryWF_insert _ _ _ hwf rfl
        obtain ⟨tm, tl, heq, htm, htl, hwf'⟩ :=
          ih (setInsert toMonitor ct.id) _ hwf2
        refine ⟨tm, tl, ?_, ?_, ?_, hwf'⟩
        · simp only [monitorCt, hm, if_true, hf]
          rw [setupTailer_ok ct source b tailers hlen]
          exact heq
        · intro id
          rw [htm id, mem_setInsert]
          constructor
          · rintro ((h | h) | ⟨h, _⟩)
            · exact Or.inr ⟨h, hMA⟩
            · exact Or.inl h
            · exact Or.inr ⟨h, hMA⟩
          · rintro (h | ⟨h, _⟩)
            · exact Or.inl (Or.inr h)
            · exact Or.inl (Or.inl h)
        · intro id
          rw [htl id, regFind_insert]
          by_cases hid : id = ct.id
          · subst hid
            rw [if_pos rfl]
            constructor
            · intro _
              exact Or.inr ⟨rfl, hMA⟩
            · intro _
              exact Or.inl (by simp)
          · simp only [hid, if_false, false_and, or_false]
      | some tailer =>
        have htid : tailer.containerID = ct.id :=
          hwf _ (assocFind?_mem _ _ _ hf)
        cases hst : tailer.shouldStop with
        | true =>
          have hstop' : stopTailerReg tailers tailer =
              regErase tailers ct.id := by
            unfold stopTailerReg; rw [htid]
          have hwfe : RegistryWF (regErase tailers ct.id) :=
            RegistryWF_erase _ _ hwf
          have hwf2 : RegistryWF (regInsert (regErase tailers ct.id) ct.id
              { containerID := ct.id, shouldStop := false }) :=
            RegistryWF_insert _ _ _ hwfe rfl
          obtain ⟨tm, tl, heq, htm, htl, hwf'⟩ :=
            ih (setInsert toMonitor ct.id) _ hwf2
          refine ⟨tm, tl, ?_, ?_, ?_, hwf'⟩
          · simp only [monitorCt, hm, if_true, hf, hst]
            rw [hstop', setupTailer_ok ct source b _ hlen]
            exact heq
          · intro id
            rw [htm id, mem_setInsert]
            constructor
            · rintro ((h | h) | ⟨h, _⟩)
              · exact Or.inr ⟨h, hMA⟩
              · exact Or.inl h
              · exact Or.inr ⟨h, hMA⟩
            · rintro (h | ⟨h, _⟩)
              · exact Or.inl (Or.inr h)
              · exact Or.inl (Or.inl h)
          · intro id
            rw [htl id, regFind_insert, regFind_erase]
            by_cases hid : id = ct.id
            · subst hid
              rw [if_pos rfl, hf]
              constructor
              · intro _
                exact Or.inl (by simp)
              · intro _
                exact Or.inl (by simp)
            · simp only [hid, if_false, false_and, or_false]
        | false =>
          obtain ⟨tm, tl, heq, htm, htl, hwf'⟩ :=
            ih (setInsert toMonitor ct.id) tailers hwf
          refine ⟨tm, tl, ?_, ?_, ?_, hwf'⟩
          · simp only [monitorCt, hm, if_true, hf, hst,
              Bool.false_eq_true, if_false]
            exact heq
          · intro id
            rw [htm id, mem_setInsert]
            constructor
            · rintro ((h | h) | ⟨h, _⟩)
              · exact Or.inr ⟨h, hMA⟩
              · exact Or.inl h
              · exact Or.inr ⟨h, hMA⟩
            · rintro (h | ⟨h, _⟩)
              · exact Or.inl (Or.inr h)
              · exact Or.inl (Or.inl h)
          · intro id
            rw [htl id]
            by_cases hid : id = ct.id
            · subst hid
              rw [hf]
              constructor
              · intro _
                exact Or.inl (by simp)
              · intro _
                exact Or.inl (by simp)
            · constructor
              · rintro (h | ⟨h, _⟩)
                · exact Or.inl h
                · exact absurd h hid
              · rintro (h | ⟨h, _⟩)
                · exact Or.inl h
                · exact absurd h hid

/-- The outer loop of `scan` over all running containers: it succeeds,
marks exactly the matched container IDs, and leaves the registry binding
an ID exactly when it did before or the ID belongs to a matched
container. -/
theorem monitorAll_ok (b : Bool) :
    ∀ (containers : List Container) (sources : List LogSource)
      (toMonitor : List String) (tailers : Registry),
      (∀ c ∈ containers, 12 ≤ goLen c.id) → RegistryWF tailers →
      ∃ tm tl, monitorAll sources containers b toMonitor tailers =
          Except.ok (tm, tl) ∧
        (∀ id, id ∈ tm ↔ (id ∈ toMonitor ∨
          ∃ c ∈ containers, c.id = id ∧ matchedAny sources c)) ∧
        (∀ id, (assocFind? tl id).isSome ↔
          ((assocFind? tailers id).isSome ∨
           ∃ c ∈ containers, c.id = id ∧ matchedAny sources c)) ∧
        RegistryWF tl := by
  intro containers
  induction containers with
  | nil =>
    intro sources toMonitor tailers _ hwf
    refine ⟨toMonitor, tailers, rfl, ?_, ?_, hwf⟩
    · intro id; simp
    · intro id; simp
  | cons ct rest ih =>
    intro sources toMonitor tailers hlen hwf
    have hct : 12 ≤ goLen ct.id := hlen ct (List.mem_cons_self _ _)
    obtain ⟨tm1, tl1, heq1, htm1, htl1, hwf1⟩ :=
      monitorCt_ok ct b hct sources toMonitor tailers hwf
    obtain ⟨tm, tl, heq, htm, htl, hwf'⟩ :=
      ih sources tm1 tl1 (fun c hc => hlen c (List.mem_cons_of_mem _ hc))
        hwf1
    refine ⟨tm, tl, ?_, ?_, ?_, hwf'⟩
    · simp only [monitorAll, heq1]
      exact heq
    · intro id
      rw [htm id, htm1 id]
      constructor
      · rintro ((h | ⟨h1, h2⟩) | ⟨c, hc, h1, h2⟩)
        · exact Or.inl h
        · exact Or.inr ⟨ct, List.mem_cons_self _ _, h1.symm, h2⟩
        · exact Or.inr ⟨c, List.mem_cons_of_mem _ hc, h1, h2⟩
      · rintro (h | ⟨c, hc, h1, h2⟩)
        · exact Or.inl (Or.inl h)
        · rcases List.mem_cons.mp hc with hceq | hcr
          · subst hceq
            exact Or.inl (Or.inr ⟨h1.symm, h2⟩)
          · exact Or.inr ⟨c, hcr, h1, h2⟩
    · intro id
      rw [htl id, htl1 id]
      constructor
      · rintro ((h | ⟨h1, h2⟩) | ⟨c, hc, h1, h2⟩)
        · exact Or.inl h
        · exact Or.inr ⟨ct, List.mem_cons_self _ _, h1.symm, h2⟩
        · exact Or.inr ⟨c, List.mem_cons_of_mem _ hc, h1, h2⟩
      · rintro (h | ⟨c, hc, h1, h2⟩)
        · exact Or.inl (Or.inl h)
        · rcases List.mem_cons.mp hc with hceq | hcr
          · subst hceq
            exact Or.inl (Or.inr ⟨h1.symm, h2⟩)
          · exact Or.inr ⟨c, hcr, h1, h2⟩

/-- The "stop old containers" loop keeps a binding exactly when its key
was bound before and was marked to monitor. -/
theorem stopOld_mem :
    ∀ (n : Nat) (tailers : Registry), tailers.length ≤ n →
      RegistryWF tailers → ∀ (toMonitor : List String) (id : String),
      ((assocFind? (stopOld tailers toMonitor) id).isSome ↔
        ((assocFind? tailers id).isSome ∧ id ∈ toMonitor)) := by
  intro n
  induction n with
  | zero =>
    intro tailers hle _ toMonitor id
    have hnil : tailers = [] := List.length_eq_zero.mp (Nat.le_zero.mp hle)
    subst hnil
    simp [stopOld, assocFind?]
  | succ n ih =>
    intro tailers hle hwf toMonitor id
    cases tailers with
    | nil => simp [stopOld, assocFind?]
    | cons p rest =>
      obtain ⟨k, t⟩ := p
      have htk : t.containerID = k := hwf _ (List.mem_cons_self _ _)
      have hwfr : RegistryWF rest :=
        fun q hq => hwf q (List.mem_cons_of_mem _ hq)
      have hler : rest.length ≤ n := by
        simpa using Nat.le_of_succ_le_succ (by simpa using hle)
      cases hc : toMonitor.contains k with
      | true =>
        have hkmem : k ∈ toMonitor := List.elem_iff.mp hc
        rw [stopOld]
        simp only [hc, if_true]
        by_cases hid : id = k
        · subst hid
          simp [assocFind?, hkmem]
        · have hb : (k == id) = false := by simp [Ne.symm hid]
          simp only [assocFind?, hb, Bool.false_eq_true, if_false]
          exact ih rest hler hwfr toMonitor id
      | false =>
        have hkne : k ∉ toMonitor := by
          intro hmem
          have hc2 : toMonitor.contains k = true := List.elem_iff.mpr hmem
          rw [hc2] at hc
          cases hc
        rw [stopOld]
        simp only [hc, Bool.false_eq_true, if_false]
        have hsr : stopTailerReg rest t = regErase rest k := by
          unfold stopTailerReg; rw [htk]
        rw [hsr]
        have hwfe : RegistryWF (regErase rest k) :=
          RegistryWF_erase _ _ hwfr
        have hlee : (regErase rest k).length ≤ n :=
          le_trans (List.length_filter_le _ _) hler
        rw [ih _ hlee hwfe toMonitor id, regFind_erase]
        by_cases hid : id = k
        · subst hid
          simp [hkne]
        · have hb : (k == id) = false := by simp [Ne.symm hid]
          simp only [hid, if_false, assocFind?, hb, Bool.false_eq_true]

/-- One stop-free `scan` with long-enough container IDs succeeds, and the
resulting registry binds exactly the IDs of the containers matched by some
source. -/
theorem scan_characterization (s : ScannerState) (C : List Container)
    (b : Bool) (hstop : s.shouldStop = false)
    (hwf : RegistryWF s.tailers)
    (hlen : ∀ c ∈ C, 12 ≤ goLen c.id) :
    ∃ s', scan s (some C) b = Except.ok s' ∧
      ∀ id, (assocFind? s'.tailers id).isSome ↔
        ∃ c ∈ C, c.id = id ∧ ∃ src ∈ s.sources,
          sourceShouldMonitorContainer src c = true := by
  obtain ⟨tm, tl, heq, htm, htl, hwf'⟩ :=
    monitorAll_ok b C s.sources [] s.tailers hlen hwf
  refine ⟨{ s with tailers := stopOld tl tm }, ?_, ?_⟩
  · unfold scan
    rw [if_neg (by simp [hstop])]
    simp only [listContainers, heq]
  · intro id
    rw [stopOld_mem tl.length tl (le_refl _) hwf' tm id, htl id, htm id]
    simp only [List.not_mem_nil, false_or]
    constructor
    · rintro ⟨_, c, hc, h1, h2⟩
      exact ⟨c, hc, h1, h2⟩
    · rintro ⟨c, hc, h1, h2⟩
      exact ⟨Or.inr ⟨c, hc, h1, h2⟩, ⟨c, hc, h1, h2⟩⟩

/-! ## Concrete scanner instances for the witnesses -/

/-- An open-wildcard container source (no image, no label). -/
def srcAllW : LogSource :=
  { type_ := LogType.docker, image := "", label := "" }

/-- A container with a 12-byte ID. -/
def ctW : Container :=
  { id := "abcdefabcdef", image := "nginx", labels := [] }

/-- A container whose ID is shorter than 12 bytes. -/
def ctShortW : Container :=
  { id := "short", image := "nginx", labels := [] }

/-- A registered tailer for a container that is no longer running. -/
def staleTailer : DockerTailer :=
  { containerID := "oldoldoldold", shouldStop := false }

/-- A scanner with one open source, one stale tailer, not stopping. -/
def scannerW : ScannerState :=
  { sources := [srcAllW]
    tailers := [("oldoldoldold", staleTailer)]
    shouldStop := false }

/-- A freshly constructed scanner over one open source. -/
def scannerW2 : ScannerState := scannerNew [srcAllW]

/-- C1: one stop-free execution of `scan` leaves the tailer registry's key
set equal to exactly the running containers' IDs that match at least one
source — no extra key survives and no matched ID is missing — whatever the
registry held before. (The container IDs must be at least 12 bytes, the
implicit precondition of `setupTailer`; the registry satisfies its
representation invariant.) -/
theorem scan_reconciles_tailed_set (s : ScannerState) (C : List Container)
    (b : Bool) (hstop : s.shouldStop = false)
    (hwf : RegistryWF s.tailers)
    (hlen : ∀ c ∈ C, 12 ≤ goLen c.id) :
    ∃ s', scan s (some C) b = Except.ok s' ∧
      ∀ id, (assocFind? s'.tailers id).isSome ↔
        ∃ c ∈ C, c.id = id ∧ ∃ src ∈ s.sources,
          sourceShouldMonitorContainer src c = true :=
  scan_characterization s C b hstop hwf hlen

theorem scan_reconciles_tailed_set_witness :
    (scannerW.shouldStop = false ∧ RegistryWF scannerW.tailers ∧
      ∀ c ∈ [ctW], 12 ≤ goLen c.id) ∧
    (∃ s', scan scannerW (some [ctW]) true = Except.ok s' ∧
      ∀ id, (assocFind? s'.tailers id).isSome ↔
        ∃ c ∈ [ctW], c.id = id ∧ ∃ src ∈ scannerW.sources,
          sourceShouldMonitorContainer src c = true) :=
  ⟨⟨rfl, by decide, by decide⟩,
   scan_reconciles_tailed_set scannerW [ctW] true rfl (by decide)
     (by decide)⟩

/-- C9: `Start` launches the background loop exactly when `setup` returns
no error; with zero container sources, or with a failed client build,
`setup` errors and the loop is never launched — and `Start`'s result
carries no error component at all, so the caller sees nothing. -/
theorem scannerStart_error_cases (s : ScannerState) (clientOk : Bool)
    (listerResult : Option (List Container)) :
    ((scannerStart s clientOk listerResult).2 = true ↔
      ∃ s', scannerSetup s clientOk listerResult = Except.ok s') ∧
    (s.sources = [] →
      scannerSetup s clientOk listerResult =
        Except.error "No container source defined" ∧
      (scannerStart s clientOk listerResult).2 = false) ∧
    (clientOk = false →
      (∃ e, scannerSetup s clientOk listerResult = Except.error e) ∧
      (scannerStart s clientOk listerResult).2 = false) := by
  refine ⟨?_, ?_, ?_⟩
  · unfold scannerStart
    cases h : scannerSetup s clientOk listerResult with
    | ok s' => simp
    | error e => simp
  · intro hnil
    have h : scannerSetup s clientOk listerResult =
        Except.error "No container source defined" := by
      unfold scannerSetup
      rw [if_pos (by simp [hnil])]
    refine ⟨h, ?_⟩
    unfold scannerStart
    rw [h]
  · intro hck
    subst hck
    have h : ∃ e, scannerSetup s false listerResult = Except.error e := by
      unfold scannerSetup
      by_cases hnil : s.sources.length = 0
      · rw [if_pos hnil]
        exact ⟨_, rfl⟩
      · rw [if_neg hnil, if_pos (by simp)]
        exact ⟨_, rfl⟩
    obtain ⟨e, he⟩ := h
    refine ⟨⟨e, he⟩, ?_⟩
    unfold scannerStart
    rw [he]

theorem scannerStart_error_cases_witness :
    (scannerNew []).sources = [] ∧
    scannerSetup (scannerNew []) true (some []) =
      Except.error "No container source defined" ∧
    (scannerStart (scannerNew []) true (some [])).2 = false ∧
    (∃ e, scannerSetup scannerW2 false none = Except.error e) ∧
    (scannerStart scannerW2 false none).2 = false ∧
    (scannerStart scannerW2 true (some [])).2 = true :=
  ⟨rfl,
   ((scannerStart_error_cases (scannerNew []) true (some [])).2.1 rfl).1,
   ((scannerStart_error_cases (scannerNew []) true (some [])).2.1 rfl).2,
   ((scannerStart_error_cases scannerW2 false none).2.2 rfl).1,
   ((scannerStart_error_cases scannerW2 false none).2.2 rfl).2,
   (scannerStart_error_cases scannerW2 true (some [])).1.mpr ⟨_, rfl⟩⟩

/-- C10: `setupTailer` slices the first 12 bytes of the container ID
unconditionally, so a reconciliation that matches a container with a
shorter ID panics instead of creating its tailer; under the precondition
that every running container's ID is at least 12 bytes, a stop-free `scan`
never panics. -/
theorem scan_short_id_panics :
    (∃ e, scan (scannerNew [srcAllW]) (some [ctShortW]) true =
      Except.error e) ∧
    (∀ (s : ScannerState) (C : List Container) (b : Bool),
      s.shouldStop = false → RegistryWF s.tailers →
      (∀ c ∈ C, 12 ≤ goLen c.id) →
      ∃ s', scan s (some C) b = Except.ok s') := by
  constructor
  · exact ⟨"runtime error: slice bounds out of range", rfl⟩
  · intro s C b hstop hwf hlen
    obtain ⟨s', heq, _⟩ := scan_characterization s C b hstop hwf hlen
    exact ⟨s', heq⟩

theorem scan_short_id_panics_witness :
    (∃ e, scan (scannerNew [srcAllW]) (some [ctShortW]) true =
      Except.error e) ∧
    (scannerW.shouldStop = false ∧ RegistryWF scannerW.tailers ∧
      (∀ c ∈ [ctW], 12 ≤ goLen c.id) ∧
      ∃ s', scan scannerW (some [ctW]) false = Except.ok s') :=
  ⟨scan_short_id_panics.1,
   rfl, by decide, by decide,
   scan_short_id_panics.2 scannerW [ctW] false rfl (by decide)
     (by decide)⟩

end DDAgent
